import Mathlib

/-!
Verification of the locomotion and ground-contact subsystem of the
`disasterManagmentVr` tutorial scenes (`src/basics/terrain.js`,
`src/basics/collision.js`, `src/basics/proximity.js`).

The scene scripts are shallowly embedded: positions and heights are exact
rationals, the per-frame mutation of the globals `currentY` and
`cameraRig.position` becomes explicit state passing, and the library
ray-intersection query (`THREE.Raycaster.intersectObjects`, an external
collaborator) is a parameter `intersect : Ray → List ℚ` returning the
y-coordinates of the hit points, nearest first, exactly as the library
orders them.  The square root needed by `THREE.Vector3.normalize` lives in
`ℝ`; everything else is computable.
-/

namespace DisasterVR

/-- Coordinate data of `THREE.Vector3`, over exact rationals. -/
structure Vec3 where
  x : ℚ
  y : ℚ
  z : ℚ
deriving DecidableEq

/-- Coordinate data `(x, y, z, w)` of `THREE.Quaternion`. -/
structure Quat where
  x : ℚ
  y : ℚ
  z : ℚ
  w : ℚ
deriving DecidableEq

/-- The data a `THREE.Raycaster` is constructed from: origin, direction,
near bound and far bound. -/
structure Ray where
  origin : Vec3
  dir : Vec3
  near : ℚ
  far : ℚ
deriving DecidableEq

/-- Library `THREE.Vector3.addScaledVector(v, s)`: adds `v * s` componentwise. -/
def addScaledVector (p v : Vec3) (s : ℚ) : Vec3 :=
  ⟨p.x + v.x * s, p.y + v.y * s, p.z + v.z * s⟩

/-- Library `THREE.Vector3.applyQuaternion(q)`: `t = 2 * cross(q.xyz, v)`;
result `v + q.w * t + cross(q.xyz, t)`, exactly the library formula. -/
def applyQuaternion (v : Vec3) (q : Quat) : Vec3 :=
  let tx := 2 * (q.y * v.z - q.z * v.y)
  let ty := 2 * (q.z * v.x - q.x * v.z)
  let tz := 2 * (q.x * v.y - q.y * v.x)
  ⟨v.x + q.w * tx + q.y * tz - q.z * ty,
   v.y + q.w * ty + q.z * tx - q.x * tz,
   v.z + q.w * tz + q.x * ty - q.y * tx⟩

/-- The statement `moveDir.y = 0` of the scene scripts. -/
def zeroY (v : Vec3) : Vec3 :=
  ⟨v.x, 0, v.z⟩

/-- Squared euclidean length of a vector, `THREE.Vector3.lengthSq`. -/
def lengthSq (v : Vec3) : ℚ :=
  v.x * v.x + v.y * v.y + v.z * v.z

/-- Library `THREE.MathUtils.lerp(x, y, t) = (1 - t) * x + t * y`. -/
def lerp (x y t : ℚ) : ℚ :=
  (1 - t) * x + t * y

namespace Terrain

/-- Source `terrain.js` line 8: `const interpolationFactor = 0.2`. -/
def interpolationFactor : ℚ := 0.2

/-- Source `terrain.js` line 145: `const moveSpeed = 0.05`. -/
def moveSpeed : ℚ := 0.05

/-- The mutable state of `terrain.js`: the global `currentY` (line 7,
initialised to 1.6) and `cameraRig.position` (initialised `(0, 1.6, 3)`). -/
structure State where
  currentY : ℚ
  rig : Vec3
deriving DecidableEq

/-- Source `terrain.js` lines 83-109, `terrainFollowing(checkPosition)`: a raycaster
from 5 units above the check position, straight down, near 0, far 20, is
intersected with the terrain meshes; on a hit the height `hits[0].point.y`
is blended into `currentY` via `lerp` and written to `cameraRig.position.y`,
and the function reports whether terrain was found. -/
def terrainFollowing (intersect : Ray → List ℚ) (s : State) (checkPosition : Vec3) :
    State × Bool :=
  let ray : Ray :=
    ⟨⟨checkPosition.x, checkPosition.y + 5, checkPosition.z⟩, ⟨0, -1, 0⟩, 0, 20⟩
  match intersect ray with
  | terrainY :: _ =>
      let newY := lerp s.currentY (terrainY + 1.6) interpolationFactor
      (⟨newY, { s.rig with y := newY }⟩, true)
  | [] => (s, false)

/-- Source `terrain.js` lines 112-129, `checkTerrainAtNextPosition(nextPos)`: the
same downward raycast beneath `nextPos`; on a hit `currentY` is blended and
the desired height `terrainY + 1.6` is returned, else `null`. -/
def checkTerrainAtNextPosition (intersect : Ray → List ℚ) (s : State) (nextPos : Vec3) :
    State × Option ℚ :=
  let groundRay : Ray := ⟨⟨nextPos.x, nextPos.y + 5, nextPos.z⟩, ⟨0, -1, 0⟩, 0, 20⟩
  match intersect groundRay with
  | terrainY :: _ =>
      ({ s with currentY := lerp s.currentY (terrainY + 1.6) interpolationFactor },
       some (terrainY + 1.6))
  | [] => (s, none)

/-- Source `terrain.js` lines 144-171, the movement block of `animate` for the left
controller, parametrised by the already-computed world-space move direction
(lines 148-152, modelled separately by `sampleDir`/`sample`): when a move
vector is present, `nextPos = rig + moveDir * moveSpeed` is probed; on
confirmed ground the x/z of `nextPos` are committed and `y` set to the
blended `currentY`; otherwise the rig is translated unconditionally. -/
def moveStep (intersect : Ray → List ℚ) (moveVector : Option Vec3) (s : State) : State :=
  match moveVector with
  | none => s
  | some moveDir =>
      let nextPos := addScaledVector s.rig moveDir moveSpeed
      let res := checkTerrainAtNextPosition intersect s nextPos
      match res.2 with
      | some _ => { res.1 with rig := ⟨nextPos.x, res.1.currentY, nextPos.z⟩ }
      | none => { res.1 with rig := addScaledVector res.1.rig moveDir moveSpeed }

/-- Source `terrain.js` lines 131-182, one call of `animate`: the movement block,
then the unconditional continuous ground snap `terrainFollowing(cameraRig.position)`
of line 179. -/
def frame (intersect : Ray → List ℚ) (moveVector : Option Vec3) (s : State) : State :=
  let s1 := moveStep intersect moveVector s
  (terrainFollowing intersect s1 s1.rig).1

/-- Repeated application of the smoothing update of `terrain.js` line 100
with a constant probe-hit height `h`, starting from `c`. -/
def smoothIter (h t c : ℚ) : ℕ → ℚ
  | 0 => c
  | n + 1 => lerp (smoothIter h t c n) (h + 1.6) t

end Terrain

namespace Collision

/-- Source `collision.js` line 8: `const moveSpeed = 0.05`. -/
def moveSpeed : ℚ := 0.05

/-- Source `collision.js` line 9: `const collisionDistance = 1.0`. -/
def collisionDistance : ℚ := 1

/-- Source `collision.js` lines 97-112, `checkCollision(currentPos, moveDirection)`:
a raycaster from `(nextPos.x, nextPos.y + 0.5, nextPos.z)` along the move
direction with near 0 and far `collisionDistance` is intersected against the
collidables; the function reports `hits.length > 0`. -/
def checkCollision (intersect : Ray → List ℚ) (currentPos moveDirection : Vec3) : Bool :=
  let nextPos := addScaledVector currentPos moveDirection moveSpeed
  let raycaster : Ray :=
    ⟨⟨nextPos.x, nextPos.y + 0.5, nextPos.z⟩, moveDirection, 0, collisionDistance⟩
  decide (0 < (intersect raycaster).length)

/-- Source `collision.js` lines 127-143, the movement block of `animate` for one left
controller input, parametrised by the computed world-space move direction:
the rig is translated by `moveDir * moveSpeed` only if `checkCollision` is
false, and is left untouched otherwise. -/
def animateMove (intersect : Ray → List ℚ) (moveVector : Option Vec3) (rig : Vec3) : Vec3 :=
  match moveVector with
  | none => rig
  | some moveDir =>
      if !checkCollision intersect rig moveDir then
        addScaledVector rig moveDir moveSpeed
      else
        rig

end Collision

namespace Proximity

/-- Source `proximity.js` line 7: `const proximityDistance = 4.0`. -/
def proximityDistance : ℚ := 4

/-- The mutable state touched by `checkProximity`: the flag `isNearCube`
(line 6, initially `false`), the cube material colour (hex, initially green
`0x00ff00`) and the uniform cube scale (initially 1). -/
structure ProxState where
  isNearCube : Bool
  cubeColor : ℕ
  cubeScale : ℚ
deriving DecidableEq

/-- Source `proximity.js` lines 75-105, `checkProximity()`: `distance` is the
player-to-cube distance computed by the library (`Vector3.distanceTo`, an
external collaborator, hence a parameter), and `pulse` stands for the value
`Math.sin(Date.now() * 0.005)` of line 100.  When the player comes within the
threshold while the flag is off, the cube turns red and the flag turns on;
when the distance reaches the threshold again while the flag is on, the cube
turns green and the flag turns off; afterwards the cube pulses
(`scale = 1 + pulse * 0.2`) exactly while the flag is on. -/
def checkProximity (distance pulse : ℚ) (s : ProxState) : ProxState :=
  let s1 :=
    if distance < proximityDistance ∧ s.isNearCube = false then
      { s with cubeColor := 0xff0000, isNearCube := true }
    else if proximityDistance ≤ distance ∧ s.isNearCube = true then
      { s with cubeColor := 0x00ff00, isNearCube := false }
    else s
  if s1.isNearCube then
    { s1 with cubeScale := 1 + pulse * 0.2 }
  else
    { s1 with cubeScale := 1 }

end Proximity

namespace Sampler

/-- Source `terrain.js` line 143: `const deadzone = 0.15`. -/
def deadzone : ℚ := 0.15

/-- Source `terrain.js` lines 139-151, the input sampling shared by the scenes, up to
and including `moveDir.y = 0`: requires at least four gamepad axes, reads
`axes[2]`/`axes[3]`, applies the deadzone test
`Math.abs(x) > 0.15 || Math.abs(y) > 0.15`, and on intended movement rotates
the local vector `(axisX, 0, axisY)` by the camera quaternion and zeroes the
vertical component.  The final `moveDir.normalize()` of line 152 is
`normalize` below. -/
def sampleDir (axes : List ℚ) (q : Quat) : Option Vec3 :=
  if 4 ≤ axes.length then
    let thumbstickX := axes.getD 2 0
    let thumbstickY := axes.getD 3 0
    if deadzone < |thumbstickX| ∨ deadzone < |thumbstickY| then
      some (zeroY (applyQuaternion ⟨thumbstickX, 0, thumbstickY⟩ q))
    else none
  else none

/-- A world-space vector with real coordinates, for the result of the
square-root based `normalize`. -/
structure Vec3R where
  x : ℝ
  y : ℝ
  z : ℝ

/-- Library `THREE.Vector3.length()`, the euclidean norm. -/
noncomputable def lengthR (v : Vec3) : ℝ :=
  Real.sqrt ((lengthSq v : ℚ) : ℝ)

/-- Library `THREE.Vector3.normalize()`: `divideScalar(this.length() || 1)`; the
zero vector has length 0, a falsy value, so it is divided by 1 and returned
unchanged. -/
noncomputable def normalize (v : Vec3) : Vec3R :=
  let l : ℝ := if lengthR v = 0 then 1 else lengthR v
  ⟨(v.x : ℝ) / l, (v.y : ℝ) / l, (v.z : ℝ) / l⟩

/-- Squared euclidean length of a real vector. -/
noncomputable def lengthSqR (u : Vec3R) : ℝ :=
  u.x * u.x + u.y * u.y + u.z * u.z

/-- Source `terrain.js` lines 139-152 complete: the sampled world-space move
direction handed to the movement logic, `null` when there is no intended
movement. -/
noncomputable def sample (axes : List ℚ) (q : Quat) : Option Vec3R :=
  (sampleDir axes q).map normalize

end Sampler

end DisasterVR

namespace DisasterVR

namespace Terrain

lemma lerp_spec_form (a b t : ℚ) : lerp a b t = a + (b - a) * t := by
  unfold lerp; ring

lemma smoothIter_sub (h t c : ℚ) (n : ℕ) :
    smoothIter h t c n - (h + 1.6) = (1 - t) ^ n * (c - (h + 1.6)) := by
  induction n with
  | zero => simp [smoothIter]
  | succ n ih =>
      have hstep : smoothIter h t c (n + 1) - (h + 1.6)
          = (1 - t) * (smoothIter h t c n - (h + 1.6)) := by
        show lerp (smoothIter h t c n) (h + 1.6) t - (h + 1.6) = _
        unfold lerp; ring
      rw [hstep, ih, pow_succ]; ring

end Terrain

end DisasterVR

namespace DisasterVR

namespace Terrain

lemma terrainFollowing_hit (intersect : Ray → List ℚ) (s : State) (p : Vec3)
    (h : ℚ) (rest : List ℚ)
    (hh : intersect ⟨⟨p.x, p.y + 5, p.z⟩, ⟨0, -1, 0⟩, 0, 20⟩ = h :: rest) :
    terrainFollowing intersect s p =
      (⟨lerp s.currentY (h + 1.6) interpolationFactor,
        { s.rig with y := lerp s.currentY (h + 1.6) interpolationFactor }⟩, true) := by
  simp only [terrainFollowing]
  rw [hh]

lemma terrainFollowing_miss (intersect : Ray → List ℚ) (s : State) (p : Vec3)
    (hh : intersect ⟨⟨p.x, p.y + 5, p.z⟩, ⟨0, -1, 0⟩, 0, 20⟩ = []) :
    terrainFollowing intersect s p = (s, false) := by
  simp only [terrainFollowing]
  rw [hh]

lemma checkTerrainAtNextPosition_hit (intersect : Ray → List ℚ) (s : State) (p : Vec3)
    (h : ℚ) (rest : List ℚ)
    (hh : intersect ⟨⟨p.x, p.y + 5, p.z⟩, ⟨0, -1, 0⟩, 0, 20⟩ = h :: rest) :
    checkTerrainAtNextPosition intersect s p =
      ({ s with currentY := lerp s.currentY (h + 1.6) interpolationFactor },
       some (h + 1.6)) := by
  simp only [checkTerrainAtNextPosition]
  rw [hh]

lemma checkTerrainAtNextPosition_miss (intersect : Ray → List ℚ) (s : State) (p : Vec3)
    (hh : intersect ⟨⟨p.x, p.y + 5, p.z⟩, ⟨0, -1, 0⟩, 0, 20⟩ = []) :
    checkTerrainAtNextPosition intersect s p = (s, none) := by
  simp only [checkTerrainAtNextPosition]
  rw [hh]

lemma moveStep_none (intersect : Ray → List ℚ) (s : State) :
    moveStep intersect none s = s := rfl

lemma moveStep_commit (intersect : Ray → List ℚ) (s : State) (moveDir : Vec3)
    (h2 : ℚ) (rest : List ℚ)
    (hh : intersect ⟨⟨(addScaledVector s.rig moveDir moveSpeed).x,
        (addScaledVector s.rig moveDir moveSpeed).y + 5,
        (addScaledVector s.rig moveDir moveSpeed).z⟩, ⟨0, -1, 0⟩, 0, 20⟩ = h2 :: rest) :
    moveStep intersect (some moveDir) s =
      ⟨lerp s.currentY (h2 + 1.6) interpolationFactor,
       ⟨(addScaledVector s.rig moveDir moveSpeed).x,
        lerp s.currentY (h2 + 1.6) interpolationFactor,
        (addScaledVector s.rig moveDir moveSpeed).z⟩⟩ := by
  simp only [moveStep]
  rw [checkTerrainAtNextPosition_hit intersect s _ h2 rest hh]

lemma moveStep_fallback (intersect : Ray → List ℚ) (s : State) (moveDir : Vec3)
    (hh : intersect ⟨⟨(addScaledVector s.rig moveDir moveSpeed).x,
        (addScaledVector s.rig moveDir moveSpeed).y + 5,
        (addScaledVector s.rig moveDir moveSpeed).z⟩, ⟨0, -1, 0⟩, 0, 20⟩ = []) :
    moveStep intersect (some moveDir) s =
      ⟨s.currentY, addScaledVector s.rig moveDir moveSpeed⟩ := by
  simp only [moveStep]
  rw [checkTerrainAtNextPosition_miss intersect s _ hh]

end Terrain

/-- Claim C5: for every constant ground height `h`, smoothing factor `t ∈ (0,1)` and
initial height `c`, the code's lerp agrees with the spec's `a + (b-a)*t` form,
`h + 1.6` is a fixed point of the update, one update from 1.6 toward ground
height 0.2 yields exactly 1.64, the iteration moves monotonically toward
`h + 1.6` from either side without overshooting, and it converges to `h + 1.6`. -/
theorem lerp_smoothing_convergence (h t c : ℚ) (ht0 : 0 < t) (ht1 : t < 1) :
    (∀ a b u, lerp a b u = a + (b - a) * u) ∧
    lerp (h + 1.6) (h + 1.6) t = h + 1.6 ∧
    lerp 1.6 1.8 0.2 = 1.64 ∧
    (c ≤ h + 1.6 → ∀ n, Terrain.smoothIter h t c n ≤ Terrain.smoothIter h t c (n + 1) ∧
      Terrain.smoothIter h t c n ≤ h + 1.6) ∧
    (h + 1.6 ≤ c → ∀ n, Terrain.smoothIter h t c (n + 1) ≤ Terrain.smoothIter h t c n ∧
      h + 1.6 ≤ Terrain.smoothIter h t c n) ∧
    (∀ ε : ℚ, 0 < ε → ∃ N, ∀ n, N ≤ n → |Terrain.smoothIter h t c n - (h + 1.6)| < ε) := by
  have h1t0 : (0 : ℚ) < 1 - t := by linarith
  have h1t1 : (1 : ℚ) - t < 1 := by linarith
  refine ⟨fun a b u => Terrain.lerp_spec_form a b u, by unfold lerp; ring,
    by unfold lerp; norm_num, ?_, ?_, ?_⟩
  · intro hc n
    have hsub := Terrain.smoothIter_sub h t c n
    have hpow : (0 : ℚ) < (1 - t) ^ n := pow_pos h1t0 n
    have hle : Terrain.smoothIter h t c n ≤ h + 1.6 := by
      nlinarith [Terrain.smoothIter_sub h t c n]
    refine ⟨?_, hle⟩
    have hstep : Terrain.smoothIter h t c (n + 1) - Terrain.smoothIter h t c n
        = t * ((h + 1.6) - Terrain.smoothIter h t c n) := by
      show lerp (Terrain.smoothIter h t c n) (h + 1.6) t
          - Terrain.smoothIter h t c n = _
      unfold lerp; ring
    nlinarith
  · intro hc n
    have hsub := Terrain.smoothIter_sub h t c n
    have hpow : (0 : ℚ) < (1 - t) ^ n := pow_pos h1t0 n
    have hge : h + 1.6 ≤ Terrain.smoothIter h t c n := by
      nlinarith [Terrain.smoothIter_sub h t c n]
    refine ⟨?_, hge⟩
    have hstep : Terrain.smoothIter h t c (n + 1) - Terrain.smoothIter h t c n
        = t * ((h + 1.6) - Terrain.smoothIter h t c n) := by
      show lerp (Terrain.smoothIter h t c n) (h + 1.6) t
          - Terrain.smoothIter h t c n = _
      unfold lerp; ring
    nlinarith
  · intro ε hε
    by_cases hc : c - (h + 1.6) = 0
    · refine ⟨0, fun n _ => ?_⟩
      rw [Terrain.smoothIter_sub, hc, mul_zero, abs_zero]
      exact hε
    · have habs : (0 : ℚ) < |c - (h + 1.6)| := abs_pos.mpr hc
      obtain ⟨N, hN⟩ := exists_pow_lt_of_lt_one (div_pos hε habs) h1t1
      refine ⟨N, fun n hn => ?_⟩
      rw [Terrain.smoothIter_sub, abs_mul, abs_pow, abs_of_pos h1t0]
      have hmono : (1 - t) ^ n ≤ (1 - t) ^ N :=
        pow_le_pow_of_le_one (le_of_lt h1t0) (le_of_lt h1t1) hn
      calc (1 - t) ^ n * |c - (h + 1.6)| ≤ (1 - t) ^ N * |c - (h + 1.6)| := by
            exact mul_le_mul_of_nonneg_right hmono (abs_nonneg _)
        _ < ε / |c - (h + 1.6)| * |c - (h + 1.6)| := by
            exact mul_lt_mul_of_pos_right hN habs
        _ = ε := div_mul_cancel₀ ε (ne_of_gt habs)

/-- Witness for C5 at the spec's step-up scenario: smoothing factor 0.2 is in
`(0,1)` and one update from height 1.6 toward ground height 0.2 gives 1.64. -/
theorem lerp_smoothing_convergence_witness :
    (0 : ℚ) < 0.2 ∧ (0.2 : ℚ) < 1 ∧ lerp 1.6 1.8 0.2 = 1.64 :=
  ⟨by norm_num, by norm_num,
    (lerp_smoothing_convergence 0.2 0.2 1.6 (by norm_num) (by norm_num)).2.2.1⟩

/-- Claim C1: the ground snap runs every frame after the movement block, its probe is
the downward ray from `(rig.x, rig.y + 5, rig.z)` with near 0 and far 20; on a
hit at height `h` it sets `currentY := lerp(currentY, h + 1.6, 0.2)` and writes
`rig.y := currentY`, and on a miss it leaves the state unchanged. -/
theorem groundSnap_spec (intersect : Ray → List ℚ) (s : Terrain.State) :
    (∀ mv, Terrain.frame intersect mv s =
      (Terrain.terrainFollowing intersect (Terrain.moveStep intersect mv s)
        (Terrain.moveStep intersect mv s).rig).1) ∧
    (∀ h rest, intersect ⟨⟨s.rig.x, s.rig.y + 5, s.rig.z⟩, ⟨0, -1, 0⟩, 0, 20⟩ = h :: rest →
      Terrain.terrainFollowing intersect s s.rig =
        (⟨lerp s.currentY (h + 1.6) 0.2,
          { s.rig with y := lerp s.currentY (h + 1.6) 0.2 }⟩, true)) ∧
    (intersect ⟨⟨s.rig.x, s.rig.y + 5, s.rig.z⟩, ⟨0, -1, 0⟩, 0, 20⟩ = [] →
      Terrain.terrainFollowing intersect s s.rig = (s, false)) := by
  refine ⟨fun mv => rfl, fun h rest hh => ?_, fun hh => ?_⟩
  · exact Terrain.terrainFollowing_hit intersect s s.rig h rest hh
  · exact Terrain.terrainFollowing_miss intersect s s.rig hh

/-- Witness for C1 with a flat floor at height 0 under the initial state: both
the hit branch (probe returns the floor) and the miss branch (no geometry) are
exercised at the concrete initial rig position `(0, 1.6, 3)`. -/
theorem groundSnap_spec_witness :
    Terrain.terrainFollowing (fun _ => [0]) ⟨1.6, ⟨0, 1.6, 3⟩⟩ ⟨0, 1.6, 3⟩ =
      (⟨1.6, ⟨0, 1.6, 3⟩⟩, true) ∧
    Terrain.terrainFollowing (fun _ => []) ⟨1.6, ⟨0, 1.6, 3⟩⟩ ⟨0, 1.6, 3⟩ =
      (⟨1.6, ⟨0, 1.6, 3⟩⟩, false) := by
  constructor
  · rw [(groundSnap_spec (fun _ => [0]) ⟨1.6, ⟨0, 1.6, 3⟩⟩).2.1 0 [] rfl]
    norm_num [lerp]
  · exact (groundSnap_spec (fun _ => []) ⟨1.6, ⟨0, 1.6, 3⟩⟩).2.2 rfl

/-- Claim C2: when the sampled move vector is present and the downward probe beneath
`nextPos = rig + moveVector * 0.05` hits at height `h2`, the controller commits
`rig.x = nextPos.x`, `rig.z = nextPos.z`, sets
`currentY := lerp(currentY, h2 + 1.6, 0.2)` and applies `rig.y = currentY`. -/
theorem proactiveMove_commit_spec (intersect : Ray → List ℚ) (s : Terrain.State)
    (moveDir : Vec3) (h2 : ℚ) (rest : List ℚ)
    (hh : intersect ⟨⟨(addScaledVector s.rig moveDir 0.05).x,
        (addScaledVector s.rig moveDir 0.05).y + 5,
        (addScaledVector s.rig moveDir 0.05).z⟩, ⟨0, -1, 0⟩, 0, 20⟩ = h2 :: rest) :
    Terrain.moveStep intersect (some moveDir) s =
      ⟨lerp s.currentY (h2 + 1.6) 0.2,
       ⟨(addScaledVector s.rig moveDir 0.05).x,
        lerp s.currentY (h2 + 1.6) 0.2,
        (addScaledVector s.rig moveDir 0.05).z⟩⟩ := by
  exact Terrain.moveStep_commit intersect s moveDir h2 rest hh

/-- Witness for C2: moving along `+x` over a constant floor at height 0 from
the initial state commits the translated x/z and the blended height. -/
theorem proactiveMove_commit_spec_witness :
    Terrain.moveStep (fun _ => [0]) (some ⟨1, 0, 0⟩) ⟨1.6, ⟨0, 1.6, 3⟩⟩ =
      ⟨1.6, ⟨0.05, 1.6, 3⟩⟩ := by
  rw [proactiveMove_commit_spec (fun _ => [0]) ⟨1.6, ⟨0, 1.6, 3⟩⟩ ⟨1, 0, 0⟩ 0 [] rfl]
  norm_num [lerp, addScaledVector]

/-- Claim C3: when the sampled move vector is present but the downward probe beneath
`nextPos` finds no hit, the rig is still translated unconditionally by
`moveVector * 0.05` and `currentY` is not updated in that step. -/
theorem proactiveMove_fallback_spec (intersect : Ray → List ℚ) (s : Terrain.State)
    (moveDir : Vec3)
    (hh : intersect ⟨⟨(addScaledVector s.rig moveDir 0.05).x,
        (addScaledVector s.rig moveDir 0.05).y + 5,
        (addScaledVector s.rig moveDir 0.05).z⟩, ⟨0, -1, 0⟩, 0, 20⟩ = []) :
    Terrain.moveStep intersect (some moveDir) s =
      ⟨s.currentY, addScaledVector s.rig moveDir 0.05⟩ := by
  exact Terrain.moveStep_fallback intersect s moveDir hh

/-- Witness for C3: with no geometry at all, a `+x` move from the initial state
translates the rig by `(0.05, 0, 0)` and keeps `currentY = 1.6`. -/
theorem proactiveMove_fallback_spec_witness :
    Terrain.moveStep (fun _ => []) (some ⟨1, 0, 0⟩) ⟨1.6, ⟨0, 1.6, 3⟩⟩ =
      ⟨1.6, ⟨0.05, 1.6, 3⟩⟩ := by
  rw [proactiveMove_fallback_spec (fun _ => []) ⟨1.6, ⟨0, 1.6, 3⟩⟩ ⟨1, 0, 0⟩ rfl]
  norm_num [addScaledVector]

/-- Claim C4: across one whole frame, `currentY` is mutated only by smoothing
updates `c ↦ lerp(c, h + 1.6, 0.2)` toward actual probe hit heights.  The
five cases are exhaustive over the move vector and the oracle's answers to
the rays the frame actually casts: with no move vector, a snap miss leaves
`currentY` unchanged and a snap hit at `h` applies exactly one update toward
`h`; with a move vector, a proactive-probe miss leaves `currentY` unchanged
(the fallback snap re-probes the identical ray, so it misses too), a commit
whose follow-up snap at the committed position hits at `h` applies exactly
the two updates toward `h2` then `h`, and a commit whose follow-up snap
misses applies exactly the one update toward `h2`.  In every case the target
of each update is the head of the oracle's response to the ray cast there,
so `currentY` never changes except by such a smoothing step. -/
theorem currentY_lerp_only_invariant (intersect : Ray → List ℚ) (s : Terrain.State) :
    (intersect ⟨⟨s.rig.x, s.rig.y + 5, s.rig.z⟩, ⟨0, -1, 0⟩, 0, 20⟩ = [] →
      (Terrain.frame intersect none s).currentY = s.currentY) ∧
    (∀ h rest, intersect ⟨⟨s.rig.x, s.rig.y + 5, s.rig.z⟩, ⟨0, -1, 0⟩, 0, 20⟩ = h :: rest →
      (Terrain.frame intersect none s).currentY = lerp s.currentY (h + 1.6) 0.2) ∧
    (∀ d, intersect ⟨⟨(addScaledVector s.rig d 0.05).x,
        (addScaledVector s.rig d 0.05).y + 5,
        (addScaledVector s.rig d 0.05).z⟩, ⟨0, -1, 0⟩, 0, 20⟩ = [] →
      (Terrain.frame intersect (some d) s).currentY = s.currentY) ∧
    (∀ d h2 r2 h r3, intersect ⟨⟨(addScaledVector s.rig d 0.05).x,
        (addScaledVector s.rig d 0.05).y + 5,
        (addScaledVector s.rig d 0.05).z⟩, ⟨0, -1, 0⟩, 0, 20⟩ = h2 :: r2 →
      intersect ⟨⟨(addScaledVector s.rig d 0.05).x,
        lerp s.currentY (h2 + 1.6) 0.2 + 5,
        (addScaledVector s.rig d 0.05).z⟩, ⟨0, -1, 0⟩, 0, 20⟩ = h :: r3 →
      (Terrain.frame intersect (some d) s).currentY =
        lerp (lerp s.currentY (h2 + 1.6) 0.2) (h + 1.6) 0.2) ∧
    (∀ d h2 r2, intersect ⟨⟨(addScaledVector s.rig d 0.05).x,
        (addScaledVector s.rig d 0.05).y + 5,
        (addScaledVector s.rig d 0.05).z⟩, ⟨0, -1, 0⟩, 0, 20⟩ = h2 :: r2 →
      intersect ⟨⟨(addScaledVector s.rig d 0.05).x,
        lerp s.currentY (h2 + 1.6) 0.2 + 5,
        (addScaledVector s.rig d 0.05).z⟩, ⟨0, -1, 0⟩, 0, 20⟩ = [] →
      (Terrain.frame intersect (some d) s).currentY =
        lerp s.currentY (h2 + 1.6) 0.2) := by
  refine ⟨fun hh => ?_, fun h rest hh => ?_, fun d hh => ?_,
    fun d h2 r2 h r3 hh1 hh2 => ?_, fun d h2 r2 hh1 hh2 => ?_⟩
  · have hframe : Terrain.frame intersect none s =
        (Terrain.terrainFollowing intersect s s.rig).1 := rfl
    rw [hframe, Terrain.terrainFollowing_miss intersect s s.rig hh]
  · have hframe : Terrain.frame intersect none s =
        (Terrain.terrainFollowing intersect s s.rig).1 := rfl
    rw [hframe, Terrain.terrainFollowing_hit intersect s s.rig h rest hh]
    rfl
  · have hframe : Terrain.frame intersect (some d) s =
        (Terrain.terrainFollowing intersect (Terrain.moveStep intersect (some d) s)
          (Terrain.moveStep intersect (some d) s).rig).1 := rfl
    rw [hframe, Terrain.moveStep_fallback intersect s d hh,
      Terrain.terrainFollowing_miss intersect
        ⟨s.currentY, addScaledVector s.rig d Terrain.moveSpeed⟩
        (addScaledVector s.rig d Terrain.moveSpeed) hh]
  · have hframe : Terrain.frame intersect (some d) s =
        (Terrain.terrainFollowing intersect (Terrain.moveStep intersect (some d) s)
          (Terrain.moveStep intersect (some d) s).rig).1 := rfl
    rw [hframe, Terrain.moveStep_commit intersect s d h2 r2 hh1,
      Terrain.terrainFollowing_hit intersect _ _ h r3 hh2]
    rfl
  · have hframe : Terrain.frame intersect (some d) s =
        (Terrain.terrainFollowing intersect (Terrain.moveStep intersect (some d) s)
          (Terrain.moveStep intersect (some d) s).rig).1 := rfl
    rw [hframe, Terrain.moveStep_commit intersect s d h2 r2 hh1,
      Terrain.terrainFollowing_miss intersect _ _ hh2]
    rfl

/-- Witness for C4: with no geometry and no move vector the frame leaves
`currentY` at 1.6 untouched, and with a constant floor at height 1 a `+x`
move commits and applies exactly the two smoothing updates toward the probe
hit height 1: `lerp(lerp(1.6, 2.6, 0.2), 2.6, 0.2) = 1.96`. -/
theorem currentY_lerp_only_invariant_witness :
    (Terrain.frame (fun _ => []) none ⟨1.6, ⟨0, 1.6, 3⟩⟩).currentY = 1.6 ∧
    (Terrain.frame (fun _ => [1]) (some ⟨1, 0, 0⟩) ⟨1.6, ⟨0, 1.6, 3⟩⟩).currentY = 1.96 := by
  constructor
  · exact (currentY_lerp_only_invariant (fun _ => []) ⟨1.6, ⟨0, 1.6, 3⟩⟩).1 rfl
  · rw [(currentY_lerp_only_invariant (fun _ => [1]) ⟨1.6, ⟨0, 1.6, 3⟩⟩).2.2.2.1
      ⟨1, 0, 0⟩ 1 [] 1 [] rfl rfl]
    norm_num [lerp]

/-- Claim C10: in a frame where the move commits because ground was found beneath the
candidate position, and the subsequent unconditional ground snap also finds
ground at the committed position, `currentY` (and hence `rig.y`) receives the
smoothing update twice: the final height is
`lerp(lerp(currentY, h2 + 1.6, 0.2), h + 1.6, 0.2)`. -/
theorem frame_double_lerp (intersect : Ray → List ℚ) (s : Terrain.State)
    (moveDir : Vec3) (h2 h : ℚ) (r2 r3 : List ℚ)
    (hh1 : intersect ⟨⟨(addScaledVector s.rig moveDir 0.05).x,
        (addScaledVector s.rig moveDir 0.05).y + 5,
        (addScaledVector s.rig moveDir 0.05).z⟩, ⟨0, -1, 0⟩, 0, 20⟩ = h2 :: r2)
    (hh2 : intersect ⟨⟨(addScaledVector s.rig moveDir 0.05).x,
        lerp s.currentY (h2 + 1.6) 0.2 + 5,
        (addScaledVector s.rig moveDir 0.05).z⟩, ⟨0, -1, 0⟩, 0, 20⟩ = h :: r3) :
    (Terrain.frame intersect (some moveDir) s).currentY =
      lerp (lerp s.currentY (h2 + 1.6) 0.2) (h + 1.6) 0.2 ∧
    (Terrain.frame intersect (some moveDir) s).rig.y =
      lerp (lerp s.currentY (h2 + 1.6) 0.2) (h + 1.6) 0.2 := by
  have hframe : Terrain.frame intersect (some moveDir) s =
      (Terrain.terrainFollowing intersect (Terrain.moveStep intersect (some moveDir) s)
        (Terrain.moveStep intersect (some moveDir) s).rig).1 := rfl
  have hms := Terrain.moveStep_commit intersect s moveDir h2 r2 hh1
  rw [hframe, hms]
  rw [Terrain.terrainFollowing_hit intersect _ _ h r3 hh2]
  exact ⟨rfl, rfl⟩

namespace Sampler

lemma sampleDir_cons (a0 a1 tx ty : ℚ) (rest : List ℚ) (q : Quat)
    (h : deadzone < |tx| ∨ deadzone < |ty|) :
    sampleDir (a0 :: a1 :: tx :: ty :: rest) q =
      some (zeroY (applyQuaternion ⟨tx, 0, ty⟩ q)) := by
  have hlen : 4 ≤ (a0 :: a1 :: tx :: ty :: rest).length := by
    simp only [List.length_cons]; omega
  have hg2 : (a0 :: a1 :: tx :: ty :: rest).getD 2 0 = tx := rfl
  have hg3 : (a0 :: a1 :: tx :: ty :: rest).getD 3 0 = ty := rfl
  simp only [sampleDir, hg2, hg3]
  rw [if_pos hlen, if_pos h]

end Sampler

/-- Claim C6: whenever both thumbstick axes are within the 0.15 deadzone, the input
sampler yields no movement intent, and with no move vector the movement step
leaves the rig state unchanged. -/
theorem sample_deadzone_null (a0 a1 tx ty : ℚ) (rest : List ℚ) (q : Quat)
    (hdz : max |tx| |ty| ≤ 0.15) :
    Sampler.sampleDir (a0 :: a1 :: tx :: ty :: rest) q = none ∧
    Sampler.sample (a0 :: a1 :: tx :: ty :: rest) q = none ∧
    (∀ intersect s, Terrain.moveStep intersect none s = s) := by
  have htx : ¬ Sampler.deadzone < |tx| :=
    not_lt.mpr (le_trans (le_max_left _ _) hdz)
  have hty : ¬ Sampler.deadzone < |ty| :=
    not_lt.mpr (le_trans (le_max_right _ _) hdz)
  have hdir : Sampler.sampleDir (a0 :: a1 :: tx :: ty :: rest) q = none := by
    simp [Sampler.sampleDir, List.getD_cons_succ, List.getD_cons_zero, htx, hty]
  exact ⟨hdir, by simp [Sampler.sample, hdir], fun intersect s => rfl⟩

/-- Witness for C6: centred sticks at 0.1 deflection are inside the deadzone
and sampling returns null. -/
theorem sample_deadzone_null_witness :
    max |(0.1 : ℚ)| |(0.1 : ℚ)| ≤ 0.15 ∧
    Sampler.sampleDir [0, 0, 0.1, 0.1] ⟨0, 0, 0, 1⟩ = none := by
  have h1 : |(0.1 : ℚ)| = 0.1 := abs_of_nonneg (by norm_num)
  have hmax : max |(0.1 : ℚ)| |(0.1 : ℚ)| ≤ 0.15 := by
    rw [h1, max_self]; norm_num
  exact ⟨hmax, (sample_deadzone_null 0 0 0.1 0.1 [] ⟨0, 0, 0, 1⟩ hmax).1⟩

/-- Claim C7 amended: every non-null sampler result has zero vertical component,
and has unit length provided the rotated-and-flattened direction is nonzero;
when the viewer orientation rotates the stick vector to exactly vertical the
flattened direction is the zero vector and `normalize` returns it unchanged
(library behaviour `divideScalar(length() || 1)`), so that result has length
0 rather than 1. -/
theorem sample_normalization_amended (axes : List ℚ) (q : Quat) (v : Vec3)
    (hs : Sampler.sampleDir axes q = some v) :
    Sampler.sample axes q = some (Sampler.normalize v) ∧
    (Sampler.normalize v).y = 0 ∧
    (lengthSq v ≠ 0 → Sampler.lengthSqR (Sampler.normalize v) = 1) := by
  have hvy : v.y = 0 := by
    simp only [Sampler.sampleDir] at hs
    split_ifs at hs
    cases hs
    rfl
  refine ⟨by simp [Sampler.sample, hs], ?_, ?_⟩
  · simp [Sampler.normalize, hvy]
  · intro hne
    have hpos : (0 : ℚ) < lengthSq v := by
      have hnn : (0 : ℚ) ≤ lengthSq v :=
        add_nonneg (add_nonneg (mul_self_nonneg _) (mul_self_nonneg _)) (mul_self_nonneg _)
      exact lt_of_le_of_ne hnn (Ne.symm hne)
    have hposR : (0 : ℝ) < ((lengthSq v : ℚ) : ℝ) := by exact_mod_cast hpos
    have hlpos : 0 < Sampler.lengthR v := Real.sqrt_pos.mpr hposR
    have hlne : Sampler.lengthR v ≠ 0 := ne_of_gt hlpos
    have hsq : Sampler.lengthR v * Sampler.lengthR v = ((lengthSq v : ℚ) : ℝ) :=
      Real.mul_self_sqrt (le_of_lt hposR)
    simp only [Sampler.lengthSqR, Sampler.normalize, if_neg hlne]
    rw [div_mul_div_comm, div_mul_div_comm, div_mul_div_comm,
      div_add_div_same, div_add_div_same, hsq]
    rw [div_eq_one_iff_eq (ne_of_gt hposR)]
    push_cast [lengthSq]
    ring

/-- Witness for C7 amended: forward-right stick `(0.3, 0.4)` under the
identity orientation yields the planar vector `(0.3, 0, 0.4)`, which is
nonzero, and its normalisation has zero vertical component and unit length. -/
theorem sample_normalization_amended_witness :
    Sampler.sample [0, 0, 0.3, 0.4] ⟨0, 0, 0, 1⟩ =
      some (Sampler.normalize ⟨0.3, 0, 0.4⟩) ∧
    (Sampler.normalize ⟨0.3, 0, 0.4⟩).y = 0 ∧
    Sampler.lengthSqR (Sampler.normalize ⟨0.3, 0, 0.4⟩) = 1 := by
  have hx : Sampler.deadzone < |(0.3 : ℚ)| := by
    rw [abs_of_nonneg (by norm_num : (0 : ℚ) ≤ 0.3)]
    norm_num [Sampler.deadzone]
  have hdir : Sampler.sampleDir [0, 0, 0.3, 0.4] ⟨0, 0, 0, 1⟩ = some ⟨0.3, 0, 0.4⟩ := by
    rw [Sampler.sampleDir_cons 0 0 0.3 0.4 [] ⟨0, 0, 0, 1⟩ (Or.inl hx)]
    norm_num [applyQuaternion, zeroY]
  have h := sample_normalization_amended [0, 0, 0.3, 0.4] ⟨0, 0, 0, 1⟩ ⟨0.3, 0, 0.4⟩ hdir
  exact ⟨h.1, h.2.1, h.2.2 (by norm_num [lengthSq])⟩

/-- Claim C7 counterexample: the viewer orientation can rotate the stick direction
to exactly vertical.  The unit quaternion `(x, y, z, w) = (0.5, -0.1, -0.5, -0.7)`
sends the local direction `(0.3, 0, 0.4)` to `(0, 0.5, 0)`; zeroing the
vertical component leaves the zero vector, which `normalize` returns
unchanged, so the sampler yields a non-null result of length 0, not unit
length. -/
theorem sample_normalization_counterexample :
    Sampler.sample [0, 0, 0.3, 0.4] ⟨0.5, -0.1, -0.5, -0.7⟩ =
      some (⟨0, 0, 0⟩ : Sampler.Vec3R) ∧
    Sampler.lengthSqR ⟨0, 0, 0⟩ ≠ 1 ∧
    (0.5 : ℚ) ^ 2 + (-0.1) ^ 2 + (-0.5) ^ 2 + (-0.7) ^ 2 = 1 := by
  have hx : Sampler.deadzone < |(0.3 : ℚ)| := by
    rw [abs_of_nonneg (by norm_num : (0 : ℚ) ≤ 0.3)]
    norm_num [Sampler.deadzone]
  have hdir : Sampler.sampleDir [0, 0, 0.3, 0.4] ⟨0.5, -0.1, -0.5, -0.7⟩ =
      some ⟨0, 0, 0⟩ := by
    rw [Sampler.sampleDir_cons 0 0 0.3 0.4 [] ⟨0.5, -0.1, -0.5, -0.7⟩ (Or.inl hx)]
    norm_num [applyQuaternion, zeroY]
  have hlen : Sampler.lengthR (⟨0, 0, 0⟩ : Vec3) = 0 := by
    simp [Sampler.lengthR, lengthSq]
  have hnorm : Sampler.normalize (⟨0, 0, 0⟩ : Vec3) = ⟨0, 0, 0⟩ := by
    simp [Sampler.normalize, hlen]
  refine ⟨by simp [Sampler.sample, hdir, hnorm], ?_, by norm_num⟩
  norm_num [Sampler.lengthSqR]

/-- Claim C8: in the collision variant, whenever the forward probe (ray from the
candidate position raised by 0.5, along the move direction, near 0, far 1.0)
hits an obstacle, the movement is blocked and the rig is left entirely
unchanged; when it does not hit, the rig is translated by `moveDir * 0.05`;
and since the sampled move direction has zero vertical component the variant
never adjusts the rig height in either case. -/
theorem collision_block_spec (intersect : Ray → List ℚ) (rig moveDir : Vec3) :
    (Collision.checkCollision intersect rig moveDir = true ↔
      intersect ⟨⟨(addScaledVector rig moveDir 0.05).x,
        (addScaledVector rig moveDir 0.05).y + 0.5,
        (addScaledVector rig moveDir 0.05).z⟩, moveDir, 0, 1⟩ ≠ []) ∧
    (Collision.checkCollision intersect rig moveDir = true →
      Collision.animateMove intersect (some moveDir) rig = rig) ∧
    (Collision.checkCollision intersect rig moveDir = false →
      Collision.animateMove intersect (some moveDir) rig =
        addScaledVector rig moveDir 0.05) ∧
    (moveDir.y = 0 → (Collision.animateMove intersect (some moveDir) rig).y = rig.y) := by
  refine ⟨?_, fun hc => ?_, fun hc => ?_, fun hy => ?_⟩
  · simp only [Collision.checkCollision, decide_eq_true_eq, List.length_pos]
    exact Iff.rfl
  · simp [Collision.animateMove, hc]
  · simp [Collision.animateMove, hc, Collision.moveSpeed]
  · rcases hc : Collision.checkCollision intersect rig moveDir
    · simp [Collision.animateMove, hc, addScaledVector, hy]
    · simp [Collision.animateMove, hc]

/-- Witness for C8: with an obstacle directly ahead (the probe reports a hit)
a `+x` move from the initial rig position is fully blocked, and with no
obstacle it translates the rig horizontally, keeping its height. -/
theorem collision_block_spec_witness :
    Collision.animateMove (fun _ => [1]) (some ⟨1, 0, 0⟩) ⟨0, 1.6, 3⟩ = ⟨0, 1.6, 3⟩ ∧
    Collision.animateMove (fun _ => []) (some ⟨1, 0, 0⟩) ⟨0, 1.6, 3⟩ = ⟨0.05, 1.6, 3⟩ := by
  constructor
  · exact (collision_block_spec (fun _ => [1]) ⟨0, 1.6, 3⟩ ⟨1, 0, 0⟩).2.1 rfl
  · rw [(collision_block_spec (fun _ => []) ⟨0, 1.6, 3⟩ ⟨1, 0, 0⟩).2.2.1 rfl]
    norm_num [addScaledVector]

/-- Claim C9: the proximity flag becomes near exactly when `distance < 4.0` while it
was off (at distance exactly 4.0 nothing happens, the boundary is exclusive),
becomes far exactly when `distance ≥ 4.0` while it was on, the colour change
fires only on those transition edges, and the pulsating scale is applied
exactly while the flag is near. -/
theorem proximity_threshold_spec (d p : ℚ) (s : Proximity.ProxState) :
    ((s.isNearCube = false ∧ d < 4) →
      (Proximity.checkProximity d p s).isNearCube = true ∧
      (Proximity.checkProximity d p s).cubeColor = 0xff0000) ∧
    ((s.isNearCube = true ∧ 4 ≤ d) →
      (Proximity.checkProximity d p s).isNearCube = false ∧
      (Proximity.checkProximity d p s).cubeColor = 0x00ff00) ∧
    ((s.isNearCube = false ∧ ¬ d < 4) →
      (Proximity.checkProximity d p s).isNearCube = false ∧
      (Proximity.checkProximity d p s).cubeColor = s.cubeColor) ∧
    ((s.isNearCube = true ∧ d < 4) →
      (Proximity.checkProximity d p s).isNearCube = true ∧
      (Proximity.checkProximity d p s).cubeColor = s.cubeColor) ∧
    ((s.isNearCube = false ∧ d = 4) →
      (Proximity.checkProximity d p s).isNearCube = false ∧
      (Proximity.checkProximity d p s).cubeColor = s.cubeColor) ∧
    ((Proximity.checkProximity d p s).cubeScale =
      if (Proximity.checkProximity d p s).isNearCube = true then 1 + p * 0.2 else 1) := by
  rcases s with ⟨near, color, scale⟩
  by_cases hd : d < (4 : ℚ)
  · have hd2 : ¬ (4 : ℚ) ≤ d := not_le.mpr hd
    have hd3 : d ≠ 4 := by intro h; rw [h] at hd; exact absurd hd (by norm_num)
    cases near <;>
      simp [Proximity.checkProximity, Proximity.proximityDistance, hd, hd2, hd3]
  · have hd2 : (4 : ℚ) ≤ d := not_lt.mp hd
    cases near <;>
      simp [Proximity.checkProximity, Proximity.proximityDistance, hd, hd2]

/-- Witness for C9 at the spec's boundary scenario: distance exactly 4.0 with
the flag off causes no transition and no colour change, while distance 3.9
turns the flag on and the cube red. -/
theorem proximity_threshold_spec_witness :
    (Proximity.checkProximity 4 0 ⟨false, 0x00ff00, 1⟩).isNearCube = false ∧
    (Proximity.checkProximity 4 0 ⟨false, 0x00ff00, 1⟩).cubeColor = 0x00ff00 ∧
    (Proximity.checkProximity 3.9 0 ⟨false, 0x00ff00, 1⟩).isNearCube = true ∧
    (Proximity.checkProximity 3.9 0 ⟨false, 0x00ff00, 1⟩).cubeColor = 0xff0000 := by
  have h1 := (proximity_threshold_spec 4 0 ⟨false, 0x00ff00, 1⟩).2.2.1
    ⟨rfl, by norm_num⟩
  have h2 := (proximity_threshold_spec 3.9 0 ⟨false, 0x00ff00, 1⟩).1
    ⟨rfl, by norm_num⟩
  exact ⟨h1.1, h1.2, h2.1, h2.2⟩

/-- Witness for C10: moving along `+x` over a constant floor at height 2 from
the initial state, both probes hit and the frame applies the lerp twice:
`lerp(lerp(1.6, 3.6, 0.2), 3.6, 0.2) = 2.32`. -/
theorem frame_double_lerp_witness :
    (Terrain.frame (fun _ => [2]) (some ⟨1, 0, 0⟩) ⟨1.6, ⟨0, 1.6, 3⟩⟩).currentY = 2.32 := by
  rw [(frame_double_lerp (fun _ => [2]) ⟨1.6, ⟨0, 1.6, 3⟩⟩ ⟨1, 0, 0⟩ 2 2 [] [] rfl rfl).1]
  norm_num [lerp]

end DisasterVR
